import Mathlib

/-!
Verification of the dialogue branching tree of Narratium.ai.

Shallow embedding of:
* the `DialogueNode` / `DialogueTree` data model (models/dialogue classes);
* the current-path walk, the grid layout, the node labelling and the edge
  construction of `fetchDialogueData` / `calculateOptimalLayout` in
  `src/components/DialogueTreeModal.tsx`;
* the jump-to-node guard `handleJumpClick` of the same file;
* the node-content edit operation (its backend is not among the provided
  source files, so it is modelled from the spec, see `editNodeContent`).

Presentational data that no verified property mentions (pixel gap sizes,
stroke colours, the regular-expression extraction of edge label text,
viewport zoom) is omitted from the embedding; everything else follows the
TypeScript source line by line.
-/

namespace Narratium

/-- Structured derivative of a response; the source only ever reads and
writes its `compressedContent` field (`DialogueTreeModal.tsx` lines 511,
651-653). -/
structure ParsedContent where
  compressedContent : Option String
  deriving Repr, DecidableEq

/-- One conversational turn, after the `DialogueNode` class of the data
model source file. -/
structure DialogueNode where
  node_id : String
  parent_node_id : String
  user_input : String
  assistant_response : String
  full_response : String
  parsed_content : Option ParsedContent
  created_at : String
  deriving Repr, DecidableEq

/-- The dialogue tree container, after the `DialogueTree` class of the
data model source file. -/
structure DialogueTree where
  id : String
  character_id : String
  current_node_id : String
  nodes : List DialogueNode
  created_at : String
  updated_at : String
  deriving Repr, DecidableEq

/-! ## The current-path walk (`fetchDialogueData`, lines 444-452)

The TypeScript loop

```
while (tempNodeId !== "root") \x7b
  currentPathNodeIds.push(tempNodeId);
  const node = allNodes.find((n) => n.node_id === tempNodeId);
  if (!node) break;
  tempNodeId = node.parent_node_id;
\x7d
```

pushes the current identifier, then looks its node up, and follows the
parent pointer.  The loop as written can diverge on cyclic data, so the
embedding is fuel-indexed: one unit of fuel per loop iteration (per
pushed identifier).  Termination of the source loop on well-formed trees
is proved below as fuel stability at `nodes.length`. -/

/-- Fuel-indexed transcription of the path walk. -/
def walkAux (nodes : List DialogueNode) : Nat → String → List String
  | 0, _ => []
  | fuel + 1, tempNodeId =>
    if tempNodeId = "root" then []
    else
      tempNodeId ::
        match nodes.find? (fun n => n.node_id == tempNodeId) with
        | none => []
        | some node => walkAux nodes fuel node.parent_node_id

/-- The computed current path: the walk with enough fuel for any
well-formed tree (`walk_complete` below shows any fuel of at least the
path length gives the same list). -/
def computeCurrentPath (nodes : List DialogueNode) (currentNodeId : String) :
    List String :=
  walkAux nodes (nodes.length + 1) currentNodeId

/-! ## Grid layout (`calculateOptimalLayout`, lines 464-496)

Only the integer grid shape is modelled; the horizontal and vertical gap
sizes are floating-point presentational values no claim mentions. -/

/-- The source computes `Math.round(Math.sqrt(nodeCount))`.  For a natural
`n`, `sqrt n` is a half-integer for no `n` (4n is even, odd squares are
odd), so rounding half up gives the unique integer `k` with
`(2k-1)^2 ≤ 4n < (2k+1)^2`, i.e. `(Nat.sqrt (4n) + 1) / 2`. -/
def jsRoundSqrt (n : Nat) : Nat := (Nat.sqrt (4 * n) + 1) / 2

/-- `columns` of `calculateOptimalLayout` (line 465). -/
def calcColumns (n : Nat) : Nat :=
  if n ≤ 3 then 1 else max 1 (jsRoundSqrt n)

/-- `rows = Math.ceil(allNodes.length / columns)` (line 487). -/
def calcRows (n : Nat) : Nat := (n + calcColumns n - 1) / calcColumns n

/-- The grid cell of the node at position `index` (lines 492-493):
`(index mod columns, index div columns)`. -/
def cellOf (n i : Nat) : Nat × Nat := (i % calcColumns n, i / calcColumns n)

/-! ## Node labels (`fetchDialogueData`, lines 501-521) -/

/-- Placeholder for the localized text `t("dialogue.startingPoint")`. -/
def startingPointText : String := "dialogue.startingPoint"

/-- Placeholder for the localized text `t("dialogue.systemMessage")`. -/
def systemMessageText : String := "dialogue.systemMessage"

/-- JavaScript `Array.findIndex`: first matching index, `-1` when there is
no match. -/
def findIndex (p : DialogueNode → Bool) : List DialogueNode → Int
  | [] => -1
  | n :: rest =>
    if p n then 0
    else
      let r := findIndex p rest
      if r = -1 then -1 else r + 1

/-- JavaScript truthiness of `node.parsed_content?.compressedContent`
(line 511): present and a non-empty string. -/
def truthyCompressed : Option ParsedContent → Option String
  | none => none
  | some pc =>
    match pc.compressedContent with
    | none => none
    | some s => if s = "" then none else some s

/-- The truncated response of lines 514-516: at most 30 characters, with
an ellipsis suffix when truncated. -/
def shortResponse (resp : String) : String :=
  if resp.length > 30 then resp.take 30 ++ "..." else resp

/-- The label derivation of lines 501-521. -/
def nodeLabel (allNodes : List DialogueNode) (node : DialogueNode) : String :=
  if node.node_id = "root" then "root"
  else if node.parent_node_id = "root" then
    let rootChildren := allNodes.filter fun n => n.parent_node_id == "root"
    let rootChildIndex :=
      findIndex (fun n => n.node_id == node.node_id) rootChildren
    let rootChildrenCount := rootChildren.length
    startingPointText ++ toString ((rootChildrenCount : Int) - rootChildIndex)
      ++ (if rootChildrenCount > 1 then "/" ++ toString rootChildrenCount
          else "")
  else if node.assistant_response ≠ "" then
    match truthyCompressed node.parsed_content with
    | some s => s
    | none => shortResponse node.assistant_response
  else systemMessageText

/-! ## Positioned nodes and edges (`fetchDialogueData`, lines 491-604)

`FlowNode` keeps the fields the claims mention (identifier, label,
response text, current-path membership, grid cell); pixel coordinates,
style and callbacks are presentational. -/

structure FlowNode where
  id : String
  label : String
  assistantResponse : String
  isCurrentPath : Bool
  col : Nat
  row : Nat
  deriving Repr, DecidableEq

/-- The node list built by the `allNodes.forEach` of lines 491-543. -/
def layoutNodes (allNodes : List DialogueNode) (pathIds : List String) :
    List FlowNode :=
  allNodes.enum.map fun p =>
    { id := p.2.node_id,
      label := nodeLabel allNodes p.2,
      assistantResponse := p.2.assistant_response,
      isCurrentPath := decide (p.2.node_id ∈ pathIds),
      col := p.1 % calcColumns allNodes.length,
      row := p.1 / calcColumns allNodes.length }

structure FlowEdge where
  id : String
  source : String
  target : String
  className : String
  strokeWidth : Nat
  deriving Repr, DecidableEq

/-- The edge list built by the `allNodes.forEach` of lines 545-604: an
edge per non-root node (with a truthy identifier) whose parent and own
identifiers both resolve in the node map; class `root-source` when the
source is the root, else `current-path` when both endpoints are on the
current path, else `other-path`. -/
def buildEdges (allNodes : List DialogueNode) (pathIds : List String) :
    List FlowEdge :=
  allNodes.filterMap fun node =>
    if node.node_id ≠ "" ∧ node.node_id ≠ "root" then
      if node.parent_node_id ∈ allNodes.map DialogueNode.node_id ∧
          node.node_id ∈ allNodes.map DialogueNode.node_id then
        some { id := "edge-" ++ node.parent_node_id ++ "-" ++ node.node_id,
               source := node.parent_node_id,
               target := node.node_id,
               className :=
                 if node.parent_node_id = "root" then "root-source"
                 else if node.parent_node_id ∈ pathIds ∧
                     node.node_id ∈ pathIds then "current-path"
                 else "other-path",
               strokeWidth :=
                 if (node.parent_node_id ∈ pathIds ∧
                     node.node_id ∈ pathIds) ∨
                     node.parent_node_id = "root" then 3
                 else 2 }
      else none
    else none

/-! ## Editing a node's content -/

/-- Modelled from the spec: `editNodeContent` of §4.2.  The backing
implementation `editDialaogueNodeContent` (`@/function/dialogue/edit`)
is not among the provided source files; only its caller
`saveEditContent` (`DialogueTreeModal.tsx` lines 617-677) is, and the
caller corroborates the success shape (it replaces the edited node's
response with the new text and its parsed content with the summarizer's
result, leaves every other node untouched, and on failure changes
nothing).  Precondition: the node exists; the summarizer is an opaque
call returning a compressed summary or a failure; on summarizer failure
the whole edit fails and no tree is produced (all-or-nothing).  The
`updated_at` timestamp refresh is an external clock effect that is not
modelled. -/
def editNodeContent (tree : DialogueTree) (nodeId newText : String)
    (summarizer : String → Option String) : Option DialogueTree :=
  if tree.nodes.any fun n => n.node_id == nodeId then
    match summarizer newText with
    | none => none
    | some summary =>
      some { tree with nodes := tree.nodes.map fun n =>
        if n.node_id = nodeId then
          { n with assistant_response := newText,
                   parsed_content :=
                     some { compressedContent := some summary } }
        else n }
  else none

/-! ## Jumping to a node (`handleJumpClick`, lines 67-86) -/

/-- Outcome of a click on a node's jump button: the root-node tooltip
(the distinct cannot-jump-to-root signal), suppression while a jump is
already in flight, or invocation of the branch switch with the clicked
node's identifier. -/
inductive JumpOutcome where
  | rootTooltip
  | suppressed
  | invoked (nodeId : String)
  deriving Repr, DecidableEq

/-- The decision logic of `handleJumpClick` (lines 67-86): the root
check comes first, then the in-flight guard, then the switch call. -/
def handleJumpClick (id : String) (isJumping : Bool) : JumpOutcome :=
  if id = "root" then JumpOutcome.rootTooltip
  else if isJumping then JumpOutcome.suppressed
  else JumpOutcome.invoked id

/-- The current pointer after a click: only an invoked switch (whatever
its behaviour `switchResult`) can change it. -/
def currentAfterJump (cur : String) (id : String) (isJumping : Bool)
    (switchResult : String → String) : String :=
  match handleJumpClick id isJumping with
  | JumpOutcome.invoked nodeId => switchResult nodeId
  | _ => cur

/-! ## Sample data used by witnesses and the concrete scenario claims

The three-node tree of the spec scenario: root, A a child of root, B a
child of A. -/

def rootNode : DialogueNode :=
  { node_id := "root", parent_node_id := "root", user_input := "",
    assistant_response := "", full_response := "", parsed_content := none,
    created_at := "t0" }

def nodeA : DialogueNode :=
  { node_id := "A", parent_node_id := "root", user_input := "u1",
    assistant_response := "foo", full_response := "foo",
    parsed_content := none, created_at := "t1" }

def nodeB : DialogueNode :=
  { node_id := "B", parent_node_id := "A", user_input := "u2",
    assistant_response := "respB", full_response := "respB",
    parsed_content := none, created_at := "t2" }

def sampleNodes : List DialogueNode := [rootNode, nodeA, nodeB]

/-- A rank function witnessing acyclicity of `sampleNodes`. -/
def sampleRank : String → Nat :=
  fun s => if s = "root" then 0 else if s = "A" then 1 else 2

/-- The A-to-B edge of the sample tree with current node B. -/
def edgeAB : FlowEdge :=
  { id := "edge-A-B", source := "A", target := "B",
    className := "current-path", strokeWidth := 3 }

/-- A root node whose parent field is empty, for the starting-point
label scenario. -/
def labelRoot : DialogueNode :=
  { node_id := "root", parent_node_id := "", user_input := "",
    assistant_response := "", full_response := "", parsed_content := none,
    created_at := "t0" }

/-- A second direct child of the root, added after `nodeA`. -/
def nodeC : DialogueNode :=
  { node_id := "C", parent_node_id := "root", user_input := "u3",
    assistant_response := "respC", full_response := "respC",
    parsed_content := none, created_at := "t3" }

def labelNodes : List DialogueNode := [labelRoot, nodeA, nodeC]

def sampleTree : DialogueTree :=
  { id := "tree1", character_id := "char1", current_node_id := "B",
    nodes := sampleNodes, created_at := "t0", updated_at := "t0" }

def sampleSummarizer : String → Option String := fun _ => some "B-summary"

def nodeAEdited : DialogueNode :=
  { nodeA with
    assistant_response := "bar",
    parsed_content := some { compressedContent := some "B-summary" } }

def sampleTreeEdited : DialogueTree :=
  { sampleTree with nodes := [rootNode, nodeAEdited, nodeB] }

def failingSummarizer : String → Option String := fun _ => none

/-! ## Theorems -/

theorem walkAux_root (nodes : List DialogueNode) :
    ∀ fuel, walkAux nodes fuel "root" = [] := by
  intro fuel
  cases fuel with
  | zero => rfl
  | succ f => simp [walkAux]

theorem root_not_mem_walkAux (nodes : List DialogueNode) :
    ∀ fuel tempNodeId, "root" ∉ walkAux nodes fuel tempNodeId := by
  intro fuel
  induction fuel with
  | zero => intro t h; simp [walkAux] at h
  | succ f ih =>
    intro t h
    by_cases ht : t = "root"
    · rw [ht, walkAux_root] at h; exact List.not_mem_nil _ h
    · rw [walkAux, if_neg ht] at h
      rcases List.mem_cons.mp h with h1 | h2
      · exact ht h1.symm
      · cases hf : nodes.find? (fun n => n.node_id == t) with
        | none => rw [hf] at h2; exact List.not_mem_nil _ h2
        | some m => rw [hf] at h2; exact ih _ h2

theorem head_mem_computeCurrentPath (nodes : List DialogueNode)
    (cur : String) (hcur : cur ≠ "root") :
    cur ∈ computeCurrentPath nodes cur := by
  rw [computeCurrentPath, walkAux, if_neg hcur]
  exact List.mem_cons_self _ _

theorem computeCurrentPath_root (nodes : List DialogueNode) :
    computeCurrentPath nodes "root" = [] :=
  walkAux_root nodes _

/-- Main structural lemma about the walk on well-formed data: starting
from `"root"` or from an identifier present in the tree, the walk has a
unique complete result `res`, consisting of distinct node identifiers of
the tree, reached with any fuel of at least `res.length`.  Acyclicity is
supplied as a rank function `r` that strictly decreases along parent
links, and closedness as the no-dangling-parent invariant of the data
model. -/
theorem walk_complete (nodes : List DialogueNode) (r : String → Nat)
    (hacyc : ∀ n ∈ nodes, n.node_id ≠ "root" →
      r n.parent_node_id < r n.node_id)
    (hclosed : ∀ n ∈ nodes, n.node_id ≠ "root" →
      n.parent_node_id = "root" ∨
        n.parent_node_id ∈ nodes.map DialogueNode.node_id) :
    ∀ k tempNodeId, r tempNodeId < k →
      (tempNodeId = "root" ∨ tempNodeId ∈ nodes.map DialogueNode.node_id) →
      ∃ res : List String, res.Nodup ∧
        (∀ x ∈ res, x ∈ nodes.map DialogueNode.node_id) ∧
        (∀ x ∈ res, r x ≤ r tempNodeId) ∧
        (∀ fuel, res.length ≤ fuel → walkAux nodes fuel tempNodeId = res) := by
  intro k
  induction k using Nat.strong_induction_on with
  | _ k ih =>
    intro temp hrk htemp
    by_cases hroot : temp = "root"
    · refine ⟨[], List.nodup_nil, by simp, by simp, ?_⟩
      intro fuel _
      rw [hroot, walkAux_root]
    · have hmem : temp ∈ nodes.map DialogueNode.node_id :=
        htemp.resolve_left hroot
      -- the lookup succeeds
      have hfind : ∃ m, nodes.find? (fun n => n.node_id == temp) = some m := by
        cases hf : nodes.find? (fun n => n.node_id == temp) with
        | some m => exact ⟨m, rfl⟩
        | none =>
          exfalso
          obtain ⟨m, hm, hid⟩ := List.mem_map.mp hmem
          have := List.find?_eq_none.mp hf m hm
          simp [hid] at this
      obtain ⟨m, hfind⟩ := hfind
      have hmnodes : m ∈ nodes := List.mem_of_find?_eq_some hfind
      have hmid : m.node_id = temp := by
        have := List.find?_some hfind
        simpa using this
      have hmnotroot : m.node_id ≠ "root" := by rw [hmid]; exact hroot
      have hrparent : r m.parent_node_id < r temp := by
        have := hacyc m hmnodes hmnotroot
        rwa [hmid] at this
      have hptemp : m.parent_node_id = "root" ∨
          m.parent_node_id ∈ nodes.map DialogueNode.node_id :=
        hclosed m hmnodes hmnotroot
      obtain ⟨res2, hnodup, hin, hrle, hstable⟩ :=
        ih (r temp) hrk m.parent_node_id hrparent hptemp
      refine ⟨temp :: res2, ?_, ?_, ?_, ?_⟩
      · refine List.nodup_cons.mpr ⟨?_, hnodup⟩
        intro hx
        have h1 := hrle temp hx
        have h2 : r temp < r temp := lt_of_le_of_lt h1 hrparent
        exact absurd h2 (lt_irrefl _)
      · intro x hx
        rcases List.mem_cons.mp hx with h1 | h2
        · rw [h1]; exact hmem
        · exact hin x h2
      · intro x hx
        rcases List.mem_cons.mp hx with h1 | h2
        · rw [h1]
        · exact le_of_lt (lt_of_le_of_lt (hrle x h2) hrparent)
      · intro fuel hfuel
        cases fuel with
        | zero => simp at hfuel
        | succ f =>
          rw [walkAux, if_neg hroot, hfind]
          have h2 : res2.length ≤ f := by
            simp only [List.length_cons] at hfuel
            omega
          exact congrArg (List.cons temp) (hstable f h2)

/-- C1: for every tree (acyclic parent graph, no dangling parents, root
present), the walk of `fetchDialogueData` terminates after at most
`|nodes|` loop iterations — any fuel of at least `nodes.length` yields
the final path, whose length is at most `nodes.length` — and the
resulting path never contains the identifier `"root"`; a missing-parent
lookup stops the walk (the dangling-`cur` branch of the proof) rather
than looping or crashing. -/
theorem computeCurrentPath_terminates_and_excludes_root
    (nodes : List DialogueNode) (cur : String) (r : String → Nat)
    (hacyc : ∀ n ∈ nodes, n.node_id ≠ "root" →
      r n.parent_node_id < r n.node_id)
    (hclosed : ∀ n ∈ nodes, n.node_id ≠ "root" →
      n.parent_node_id = "root" ∨
        n.parent_node_id ∈ nodes.map DialogueNode.node_id)
    (hroot : "root" ∈ nodes.map DialogueNode.node_id)
    (fuel : Nat) (hfuel : nodes.length ≤ fuel) :
    walkAux nodes fuel cur = computeCurrentPath nodes cur ∧
    (computeCurrentPath nodes cur).length ≤ nodes.length ∧
    "root" ∉ computeCurrentPath nodes cur := by
  have hne : 1 ≤ nodes.length := by
    obtain ⟨n, hn, _⟩ := List.mem_map.mp hroot
    cases nodes with
    | nil => exact absurd hn (List.not_mem_nil n)
    | cons a l => simp
  by_cases hcase : cur = "root" ∨ cur ∈ nodes.map DialogueNode.node_id
  · obtain ⟨res, hnodup, hin, _, hstable⟩ :=
      walk_complete nodes r hacyc hclosed (r cur + 1) cur
        (Nat.lt_succ_self _) hcase
    have hlen : res.length ≤ nodes.length := by
      have h1 : res.length ≤ (nodes.map DialogueNode.node_id).length :=
        (List.subperm_of_subset hnodup hin).length_le
      simpa using h1
    have hpath : computeCurrentPath nodes cur = res :=
      hstable _ (le_trans hlen (by omega))
    refine ⟨?_, ?_, ?_⟩
    · rw [hpath, hstable fuel (le_trans hlen hfuel)]
    · rw [hpath]; exact hlen
    · exact root_not_mem_walkAux nodes _ cur
  · push_neg at hcase
    obtain ⟨hcur, hnot⟩ := hcase
    have hone : ∀ f, 1 ≤ f → walkAux nodes f cur = [cur] := by
      intro f hf
      cases f with
      | zero => omega
      | succ g =>
        rw [walkAux, if_neg hcur]
        have hfind : nodes.find? (fun n => n.node_id == cur) = none := by
          apply List.find?_eq_none.mpr
          intro n hn
          simp only [beq_iff_eq]
          intro h
          exact hnot (List.mem_map.mpr ⟨n, hn, h⟩)
        rw [hfind]
    refine ⟨?_, ?_, ?_⟩
    · rw [hone fuel (le_trans hne hfuel), computeCurrentPath,
        hone _ (by omega)]
    · rw [computeCurrentPath, hone _ (by omega)]; simpa using hne
    · exact root_not_mem_walkAux nodes _ cur

/-- Witness for C1 at the concrete three-node tree, with `sampleRank`
certifying acyclicity. -/
theorem computeCurrentPath_terminates_witness :
    (∀ n ∈ sampleNodes, n.node_id ≠ "root" →
      sampleRank n.parent_node_id < sampleRank n.node_id) ∧
    (∀ n ∈ sampleNodes, n.node_id ≠ "root" →
      n.parent_node_id = "root" ∨
        n.parent_node_id ∈ sampleNodes.map DialogueNode.node_id) ∧
    ("root" ∈ sampleNodes.map DialogueNode.node_id) ∧
    (3 ≤ 5) ∧
    (walkAux sampleNodes 5 "B" = computeCurrentPath sampleNodes "B" ∧
      (computeCurrentPath sampleNodes "B").length ≤ sampleNodes.length ∧
      "root" ∉ computeCurrentPath sampleNodes "B") :=
  ⟨by decide, by decide, by decide, by decide,
    computeCurrentPath_terminates_and_excludes_root sampleNodes "B"
      sampleRank (by decide) (by decide) (by decide) 5 (by decide)⟩

/-- C10: when `current_node_id` is neither `"root"` nor the identifier of
any node of the tree, the walk pushes the current identifier before the
lookup fails, so the computed path is exactly `[current_node_id]`. -/
theorem computeCurrentPath_dangling_current (nodes : List DialogueNode)
    (cur : String) (hcur : cur ≠ "root")
    (hdangling : ∀ n ∈ nodes, n.node_id ≠ cur) :
    computeCurrentPath nodes cur = [cur] := by
  rw [computeCurrentPath, walkAux, if_neg hcur]
  have hfind : nodes.find? (fun n => n.node_id == cur) = none := by
    apply List.find?_eq_none.mpr
    intro n hn
    simp [hdangling n hn]
  rw [hfind]

/-- Witness for C10: a dangling current pointer on the sample tree. -/
theorem computeCurrentPath_dangling_witness :
    ("ghost" ≠ "root") ∧ (∀ n ∈ sampleNodes, n.node_id ≠ "ghost") ∧
    computeCurrentPath sampleNodes "ghost" = ["ghost"] :=
  ⟨by decide, by decide,
    computeCurrentPath_dangling_current sampleNodes "ghost"
      (by decide) (by decide)⟩

/-- C5: the grid shape is `columns = 1` for `n ≤ 3` and otherwise
`max 1 (round (sqrt n))`, with `rows = ceil (n / columns)`; consequently
`columns * rows ≥ n`, and the cell assignment
`(index mod columns, index div columns)` is injective, so no two nodes
share a cell. -/
theorem layout_grid_properties (n i j : Nat) (hi : i < n) (hj : j < n) :
    (n ≤ 3 → calcColumns n = 1) ∧
    (3 < n → calcColumns n = max 1 (jsRoundSqrt n)) ∧
    1 ≤ calcColumns n ∧
    calcRows n = (n + calcColumns n - 1) / calcColumns n ∧
    n ≤ calcColumns n * calcRows n ∧
    (cellOf n i = cellOf n j → i = j) := by
  have hc : 1 ≤ calcColumns n := by
    rw [calcColumns]
    split
    · omega
    · exact le_max_left 1 _
  refine ⟨?_, ?_, hc, rfl, ?_, ?_⟩
  · intro h; rw [calcColumns, if_pos h]
  · intro h; rw [calcColumns, if_neg (by omega)]
  · rw [calcRows]
    have h1 := Nat.div_add_mod (n + calcColumns n - 1) (calcColumns n)
    have h2 : (n + calcColumns n - 1) % calcColumns n < calcColumns n :=
      Nat.mod_lt _ (by omega)
    omega
  · intro hcell
    simp only [cellOf, Prod.mk.injEq] at hcell
    obtain ⟨h3, h4⟩ := hcell
    calc i = calcColumns n * (i / calcColumns n) + i % calcColumns n :=
          (Nat.div_add_mod i _).symm
      _ = calcColumns n * (j / calcColumns n) + j % calcColumns n := by
          rw [h3, h4]
      _ = j := Nat.div_add_mod j _

/-- Witness for C5 on a ten-node tree: indices 4 and 7 occupy distinct
cells of the 3-column grid. -/
theorem layout_grid_witness :
    (4 < 10) ∧ (7 < 10) ∧
    ((10 ≤ 3 → calcColumns 10 = 1) ∧
     (3 < 10 → calcColumns 10 = max 1 (jsRoundSqrt 10)) ∧
     1 ≤ calcColumns 10 ∧
     calcRows 10 = (10 + calcColumns 10 - 1) / calcColumns 10 ∧
     10 ≤ calcColumns 10 * calcRows 10 ∧
     (cellOf 10 4 = cellOf 10 7 → 4 = 7)) :=
  ⟨by decide, by decide,
    layout_grid_properties 10 4 7 (by decide) (by decide)⟩

/-- C2: an emitted edge is categorized `current-path` exactly when both
its endpoints lie in `computeCurrentPath ∪ \x7bcurrent_node_id\x7d`.  (When the
current node is not the root it heads the computed path, so the union
adds nothing; when it is the root, the path is empty and no emitted edge
has the root as target.) -/
theorem currentPath_edge_iff_endpoints_on_path (nodes : List DialogueNode)
    (cur : String) (e : FlowEdge)
    (he : e ∈ buildEdges nodes (computeCurrentPath nodes cur)) :
    e.className = "current-path" ↔
      ((e.source ∈ computeCurrentPath nodes cur ∨ e.source = cur) ∧
       (e.target ∈ computeCurrentPath nodes cur ∨ e.target = cur)) := by
  obtain ⟨node, hmem, hf⟩ := List.mem_filterMap.mp he
  by_cases h1 : node.node_id ≠ "" ∧ node.node_id ≠ "root"
  case neg => rw [if_neg h1] at hf; exact absurd hf (by simp)
  rw [if_pos h1] at hf
  by_cases h2 : node.parent_node_id ∈ nodes.map DialogueNode.node_id ∧
      node.node_id ∈ nodes.map DialogueNode.node_id
  case neg => rw [if_neg h2] at hf; exact absurd hf (by simp)
  rw [if_pos h2] at hf
  injection hf with hf
  subst hf
  simp only
  have hrootP : "root" ∉ computeCurrentPath nodes cur :=
    root_not_mem_walkAux nodes _ cur
  by_cases h3 : node.parent_node_id = "root"
  · rw [if_pos h3]
    constructor
    · intro habs; exact absurd habs (by decide)
    · rintro ⟨hs, ht⟩
      exfalso
      rcases hs with hs | hs
      · rw [h3] at hs; exact hrootP hs
      · have hcur : cur = "root" := by rw [← hs, h3]
        rcases ht with ht | ht
        · rw [hcur, computeCurrentPath_root] at ht
          exact List.not_mem_nil _ ht
        · rw [hcur] at ht; exact h1.2 ht
  · rw [if_neg h3]
    by_cases h4 : node.parent_node_id ∈ computeCurrentPath nodes cur ∧
        node.node_id ∈ computeCurrentPath nodes cur
    · rw [if_pos h4]
      simp only [true_iff]
      exact ⟨Or.inl h4.1, Or.inl h4.2⟩
    · rw [if_neg h4]
      constructor
      · intro habs; exact absurd habs (by decide)
      · rintro ⟨hs, ht⟩
        exfalso
        by_cases hcur : cur = "root"
        · subst hcur
          rcases hs with hs | hs
          · rw [computeCurrentPath_root] at hs
            exact List.not_mem_nil _ hs
          · exact h3 hs
        · have hcurP : cur ∈ computeCurrentPath nodes cur :=
            head_mem_computeCurrentPath nodes cur hcur
          have hsP : node.parent_node_id ∈ computeCurrentPath nodes cur := by
            rcases hs with hs | hs
            · exact hs
            · rw [hs]; exact hcurP
          have htP : node.node_id ∈ computeCurrentPath nodes cur := by
            rcases ht with ht | ht
            · exact ht
            · rw [ht]; exact hcurP
          exact h4 ⟨hsP, htP⟩

/-- Witness for C2 at the sample tree with current node B and its
A-to-B edge. -/
theorem currentPath_edge_iff_witness :
    (edgeAB ∈ buildEdges sampleNodes (computeCurrentPath sampleNodes "B")) ∧
    (edgeAB.className = "current-path" ↔
      ((edgeAB.source ∈ computeCurrentPath sampleNodes "B" ∨
        edgeAB.source = "B") ∧
       (edgeAB.target ∈ computeCurrentPath sampleNodes "B" ∨
        edgeAB.target = "B"))) :=
  ⟨by decide,
    currentPath_edge_iff_endpoints_on_path sampleNodes "B" edgeAB (by decide)⟩

/-- Counterexample to C3 as stated: in the tree root, A(parent root),
B(parent A) with current node B, the emitted edge from root to A is
categorized `root-source`, not `current-path` (the root identifier is
never a member of the computed current path, and the source assigns a
single category per edge). -/
theorem scenario_rootA_edge_not_current_path :
    (buildEdges sampleNodes (computeCurrentPath sampleNodes "B")).head?.map
        FlowEdge.source = some "root" ∧
    (buildEdges sampleNodes (computeCurrentPath sampleNodes "B")).head?.map
        FlowEdge.target = some "A" ∧
    (buildEdges sampleNodes (computeCurrentPath sampleNodes "B")).head?.map
        FlowEdge.className = some "root-source" ∧
    ("root-source" : String) ≠ "current-path" := by
  decide

/-- C3 amended: with that tree and current node B the path is [B, A];
the edge from A to B is categorized `current-path`, the edge from root
to A is categorized `root-source` (not `current-path`), and both get the
emphasized stroke width 3. -/
theorem scenario_rootAB_classification :
    computeCurrentPath sampleNodes "B" = ["B", "A"] ∧
    (buildEdges sampleNodes (computeCurrentPath sampleNodes "B")).length
      = 2 ∧
    (buildEdges sampleNodes (computeCurrentPath sampleNodes "B")).head?.map
        FlowEdge.className = some "root-source" ∧
    ((buildEdges sampleNodes (computeCurrentPath sampleNodes "B")).get?
        1).map FlowEdge.source = some "A" ∧
    ((buildEdges sampleNodes (computeCurrentPath sampleNodes "B")).get?
        1).map FlowEdge.target = some "B" ∧
    ((buildEdges sampleNodes (computeCurrentPath sampleNodes "B")).get?
        1).map FlowEdge.className = some "current-path" ∧
    (buildEdges sampleNodes (computeCurrentPath sampleNodes "B")).head?.map
        FlowEdge.strokeWidth = some 3 ∧
    ((buildEdges sampleNodes (computeCurrentPath sampleNodes "B")).get?
        1).map FlowEdge.strokeWidth = some 3 := by
  decide

/-- C9: an edge is built for a node only when both the node identifier
and its parent identifier resolve in the node set (so a dangling parent
reference yields no edge, and the total function never throws), the
target of an emitted edge is never the root, and a tree containing only
the root node yields exactly one positioned node and zero edges. -/
theorem buildEdges_endpoints_and_root_only (allNodes : List DialogueNode)
    (pathIds : List String) (e : FlowEdge)
    (he : e ∈ buildEdges allNodes pathIds)
    (onlyRoot : DialogueNode) (hor : onlyRoot.node_id = "root") :
    e.source ∈ allNodes.map DialogueNode.node_id ∧
    e.target ∈ allNodes.map DialogueNode.node_id ∧
    e.target ≠ "root" ∧
    buildEdges [onlyRoot] pathIds = [] ∧
    (layoutNodes [onlyRoot] pathIds).length = 1 := by
  obtain ⟨node, hmem, hf⟩ := List.mem_filterMap.mp he
  by_cases h1 : node.node_id ≠ "" ∧ node.node_id ≠ "root"
  case neg => rw [if_neg h1] at hf; exact absurd hf (by simp)
  rw [if_pos h1] at hf
  by_cases h2 : node.parent_node_id ∈ allNodes.map DialogueNode.node_id ∧
      node.node_id ∈ allNodes.map DialogueNode.node_id
  case neg => rw [if_neg h2] at hf; exact absurd hf (by simp)
  rw [if_pos h2] at hf
  injection hf with hf
  subst hf
  refine ⟨h2.1, h2.2, h1.2, ?_, ?_⟩
  · simp [buildEdges, hor]
  · simp [layoutNodes]

/-- Witness for C9 at the sample tree (the A-to-B edge) and the sample
root node. -/
theorem buildEdges_endpoints_witness :
    (edgeAB ∈ buildEdges sampleNodes (computeCurrentPath sampleNodes "B")) ∧
    (rootNode.node_id = "root") ∧
    (edgeAB.source ∈ sampleNodes.map DialogueNode.node_id ∧
     edgeAB.target ∈ sampleNodes.map DialogueNode.node_id ∧
     edgeAB.target ≠ "root" ∧
     buildEdges [rootNode] (computeCurrentPath sampleNodes "B") = [] ∧
     (layoutNodes [rootNode] (computeCurrentPath sampleNodes "B")).length
       = 1) :=
  ⟨by decide, by decide,
    buildEdges_endpoints_and_root_only sampleNodes
      (computeCurrentPath sampleNodes "B") edgeAB (by decide) rootNode
      (by decide)⟩

/-- `Array.findIndex` on a list ending in the first match: the index of
the final element when no earlier element matches. -/
theorem findIndex_append_fresh (p : DialogueNode → Bool) (a : DialogueNode)
    (ha : p a = true) :
    ∀ pre : List DialogueNode, (∀ x ∈ pre, p x = false) →
      findIndex p (pre ++ [a]) = (pre.length : Int) := by
  intro pre
  induction pre with
  | nil =>
    intro _
    simp [findIndex, ha]
  | cons x rest ih =>
    intro hall
    have hx : p x = false := hall x (List.mem_cons_self x rest)
    have hrest := ih fun y hy => hall y (List.mem_cons_of_mem x hy)
    rw [List.cons_append]
    simp only [findIndex, hx, Bool.false_eq_true, if_false, hrest]
    rw [if_neg (by omega)]
    simp only [List.length_cons]
    push_cast
    ring

/-- C4: the label of a node is derived as: `"root"` for the root node;
for a direct child of the root an ordinal starting-point label in
reverse chronological order — the numbering is `M - findIndex`, so the
most recently added root-child (a fresh last element of the root-child
list) is labeled 1 out of M; otherwise the compressed summary when
(truthily) present; otherwise a prefix of at most 30 characters of the
assistant response with an ellipsis suffix when truncated; otherwise the
generic system-message placeholder. -/
theorem nodeLabel_derivation (allNodes : List DialogueNode)
    (node : DialogueNode) (pre : List DialogueNode) (s : String) :
    (node.node_id = "root" → nodeLabel allNodes node = "root") ∧
    (node.node_id ≠ "root" → node.parent_node_id = "root" →
      nodeLabel allNodes node =
        startingPointText ++
          toString
            (((allNodes.filter fun n => n.parent_node_id == "root").length :
                Int) -
              findIndex (fun n => n.node_id == node.node_id)
                (allNodes.filter fun n => n.parent_node_id == "root")) ++
          (if (allNodes.filter fun n => n.parent_node_id == "root").length
              > 1 then
            "/" ++ toString
              (allNodes.filter fun n => n.parent_node_id == "root").length
          else "")) ∧
    (node.node_id ≠ "root" → node.parent_node_id = "root" →
      (allNodes.filter fun n => n.parent_node_id == "root") = pre ++ [node] →
      (∀ x ∈ pre, x.node_id ≠ node.node_id) →
      nodeLabel allNodes node =
        startingPointText ++ "1" ++
          (if pre.length + 1 > 1 then "/" ++ toString (pre.length + 1)
           else "")) ∧
    (node.node_id ≠ "root" → node.parent_node_id ≠ "root" →
      node.assistant_response ≠ "" →
      truthyCompressed node.parsed_content = some s →
      nodeLabel allNodes node = s) ∧
    (node.node_id ≠ "root" → node.parent_node_id ≠ "root" →
      node.assistant_response ≠ "" →
      truthyCompressed node.parsed_content = none →
      nodeLabel allNodes node = shortResponse node.assistant_response) ∧
    (node.node_id ≠ "root" → node.parent_node_id ≠ "root" →
      node.assistant_response = "" →
      nodeLabel allNodes node = systemMessageText) ∧
    (30 < node.assistant_response.length →
      shortResponse node.assistant_response =
        node.assistant_response.take 30 ++ "...") ∧
    (node.assistant_response.length ≤ 30 →
      shortResponse node.assistant_response = node.assistant_response) := by
  refine ⟨?_, ?_, ?_, ?_, ?_, ?_, ?_, ?_⟩
  · intro h
    rw [nodeLabel, if_pos h]
  · intro h1 h2
    rw [nodeLabel, if_neg h1, if_pos h2]
  · intro h1 h2 hfilter hfresh
    have hgen : nodeLabel allNodes node =
        startingPointText ++
          toString
            (((allNodes.filter fun n => n.parent_node_id == "root").length :
                Int) -
              findIndex (fun n => n.node_id == node.node_id)
                (allNodes.filter fun n => n.parent_node_id == "root")) ++
          (if (allNodes.filter fun n => n.parent_node_id == "root").length
              > 1 then
            "/" ++ toString
              (allNodes.filter fun n => n.parent_node_id == "root").length
          else "") := by
      rw [nodeLabel, if_neg h1, if_pos h2]
    rw [hgen, hfilter]
    have hidx : findIndex (fun n => n.node_id == node.node_id)
        (pre ++ [node]) = (pre.length : Int) := by
      apply findIndex_append_fresh _ _ (by simp) pre
      intro x hx
      simp [hfresh x hx]
    rw [hidx]
    have hlen : (pre ++ [node]).length = pre.length + 1 := by simp
    rw [hlen]
    have harith : ((pre.length + 1 : Nat) : Int) - (pre.length : Int) = 1 := by
      push_cast
      ring
    rw [harith]
    rfl
  · intro h1 h2 h3 hc
    rw [nodeLabel, if_neg h1, if_neg h2, if_pos h3, hc]
  · intro h1 h2 h3 hc
    rw [nodeLabel, if_neg h1, if_neg h2, if_pos h3, hc]
  · intro h1 h2 h3
    rw [nodeLabel, if_neg h1, if_neg h2, if_neg (by simp [h3])]
  · intro h
    rw [shortResponse, if_pos (by omega)]
  · intro h
    rw [shortResponse, if_neg (by omega)]

/-- Witness for C4: in a tree whose root has two direct children A then
C, the most recently added child C is labeled starting point 1 of 2. -/
theorem nodeLabel_derivation_witness :
    (nodeC.node_id ≠ "root") ∧ (nodeC.parent_node_id = "root") ∧
    ((labelNodes.filter fun n => n.parent_node_id == "root") =
      [nodeA] ++ [nodeC]) ∧
    (∀ x ∈ [nodeA], x.node_id ≠ nodeC.node_id) ∧
    (nodeLabel labelNodes nodeC =
      startingPointText ++ "1" ++
        (if ([nodeA] : List DialogueNode).length + 1 > 1 then
          "/" ++ toString (([nodeA] : List DialogueNode).length + 1)
         else "")) :=
  ⟨by decide, by decide, by decide, by decide,
    ((nodeLabel_derivation labelNodes nodeC [nodeA] "").2.2.1
      (by decide) (by decide) (by decide) (by decide))⟩

/-- A pair drawn from the zip of a list with its image under a map: the
second component is the image of the first. -/
theorem mem_zip_map (f : DialogueNode → DialogueNode) :
    ∀ (l : List DialogueNode) (p : DialogueNode × DialogueNode),
      p ∈ l.zip (l.map f) → p.1 ∈ l ∧ p.2 = f p.1 := by
  intro l
  induction l with
  | nil => intro p h; simp at h
  | cons a rest ih =>
    intro p h
    rw [List.map_cons, List.zip_cons_cons] at h
    rcases List.mem_cons.mp h with h1 | h2
    · subst h1
      exact ⟨List.mem_cons_self a rest, rfl⟩
    · obtain ⟨hm, he⟩ := ih p h2
      exact ⟨List.mem_cons_of_mem a hm, he⟩

/-- C6: a successful edit sets the target node's response to the new
text and its parsed content to the summarizer's result, and changes
nothing else: tree identity and current pointer are untouched, the node
count is unchanged, every node keeps its `node_id` and
`parent_node_id`, every non-target node is untouched, and the target
keeps its other fields. -/
theorem editNodeContent_success_frame (tree : DialogueTree)
    (nodeId newText : String) (summarizer : String → Option String)
    (summary : String) (tree2 : DialogueTree)
    (hsum : summarizer newText = some summary)
    (heq : editNodeContent tree nodeId newText summarizer = some tree2)
    (p : DialogueNode × DialogueNode)
    (hp : p ∈ tree.nodes.zip tree2.nodes) :
    tree2.id = tree.id ∧
    tree2.character_id = tree.character_id ∧
    tree2.current_node_id = tree.current_node_id ∧
    tree2.nodes.length = tree.nodes.length ∧
    p.2.node_id = p.1.node_id ∧
    p.2.parent_node_id = p.1.parent_node_id ∧
    (p.1.node_id ≠ nodeId → p.2 = p.1) ∧
    (p.1.node_id = nodeId →
      p.2.assistant_response = newText ∧
      p.2.parsed_content = some { compressedContent := some summary } ∧
      p.2.user_input = p.1.user_input ∧
      p.2.full_response = p.1.full_response ∧
      p.2.created_at = p.1.created_at) := by
  rw [editNodeContent] at heq
  by_cases hany : tree.nodes.any fun n => n.node_id == nodeId
  case neg => rw [if_neg hany] at heq; exact absurd heq (by simp)
  rw [if_pos hany, hsum] at heq
  injection heq with heq
  subst heq
  obtain ⟨hm, he⟩ := mem_zip_map _ tree.nodes p hp
  refine ⟨rfl, rfl, rfl, by simp, ?_, ?_, ?_, ?_⟩
  · rw [he]
    split
    · rfl
    · rfl
  · rw [he]
    split
    · rfl
    · rfl
  · intro hne
    rw [he, if_neg hne]
  · intro heq2
    rw [he, if_pos heq2]
    exact ⟨rfl, rfl, rfl, rfl, rfl⟩

/-- Witness for C6: editing node A's response from "foo" to "bar" with a
summarizer returning "B-summary". -/
theorem editNodeContent_success_witness :
    (sampleSummarizer "bar" = some "B-summary") ∧
    (editNodeContent sampleTree "A" "bar" sampleSummarizer =
      some sampleTreeEdited) ∧
    ((nodeA, nodeAEdited) ∈ sampleTree.nodes.zip sampleTreeEdited.nodes) ∧
    (sampleTreeEdited.id = sampleTree.id ∧
     sampleTreeEdited.character_id = sampleTree.character_id ∧
     sampleTreeEdited.current_node_id = sampleTree.current_node_id ∧
     sampleTreeEdited.nodes.length = sampleTree.nodes.length ∧
     nodeAEdited.node_id = nodeA.node_id ∧
     nodeAEdited.parent_node_id = nodeA.parent_node_id ∧
     (nodeA.node_id ≠ "A" → nodeAEdited = nodeA) ∧
     (nodeA.node_id = "A" →
       nodeAEdited.assistant_response = "bar" ∧
       nodeAEdited.parsed_content =
         some { compressedContent := some "B-summary" } ∧
       nodeAEdited.user_input = nodeA.user_input ∧
       nodeAEdited.full_response = nodeA.full_response ∧
       nodeAEdited.created_at = nodeA.created_at)) :=
  ⟨rfl, by decide, by decide,
    editNodeContent_success_frame sampleTree "A" "bar" sampleSummarizer
      "B-summary" sampleTreeEdited rfl (by decide) (nodeA, nodeAEdited)
      (by decide)⟩

/-- C7: when the summarizer call fails the whole edit fails and no
updated tree is produced, so the caller keeps the prior tree — the
target node's response and parsed content remain intact
(all-or-nothing). -/
theorem editNodeContent_failure_all_or_nothing (tree : DialogueTree)
    (nodeId newText : String) (summarizer : String → Option String)
    (hfail : summarizer newText = none) :
    editNodeContent tree nodeId newText summarizer = none := by
  rw [editNodeContent]
  split
  · rw [hfail]
  · rfl

/-- Witness for C7: a failing summarizer on the sample tree. -/
theorem editNodeContent_failure_witness :
    (failingSummarizer "bar" = none) ∧
    editNodeContent sampleTree "A" "bar" failingSummarizer = none :=
  ⟨rfl,
    editNodeContent_failure_all_or_nothing sampleTree "A" "bar"
      failingSummarizer rfl⟩

/-- C8: clicking jump on the root node always yields the distinct
root-tooltip signal, never invokes the switch operation, and leaves the
current node unchanged whatever the switch would have done. -/
theorem jump_to_root_rejected (isJumping : Bool) (cur : String)
    (switchResult : String → String) (nodeId : String) :
    handleJumpClick "root" isJumping = JumpOutcome.rootTooltip ∧
    handleJumpClick "root" isJumping ≠ JumpOutcome.invoked nodeId ∧
    currentAfterJump cur "root" isJumping switchResult = cur := by
  refine ⟨rfl, ?_, rfl⟩
  intro h
  rw [handleJumpClick, if_pos rfl] at h
  exact JumpOutcome.noConfusion h

end Narratium
